import Mathlib

/-!
Shallow embedding of `src/SynchronizingDecorator.py`: the `Synchronized`
decorator, which turns a Python class or standalone function into a
serialized ("thread-safe") version by attaching a reentrant lock
(`threading.RLock`) and a binary hand-off event (`threading.Event`) and
running every wrapped call under the protocol
acquire-lock / wait-event / clear-event / call-target / release / set-event.

The embedding models:
 * the class transformation (lines 182-221): member enumeration with a
   fixed exclusion list and the `<method` / `<function` / `<slot`
   string-representation test, tagging wrappers `MemberSynchronized`,
   and the `ClassSynchronized` idempotence flag;
 * instance construction (lines 226-248): fresh `RLock` / `Event` pair,
   with `_Event_.set()` called on the new event;
 * the standalone-function path (lines 289-300): lazy creation of
   `_Lock_` / `_Event_` attributes on the function object (note: this path
   never calls `_Event_.set()` on the freshly created event);
 * the member-call lock lookup through `args[0]` (lines 262-278);
 * the call protocol itself (lines 307-348), including the fact that
   `_Event_.set()` at line 344 sits after (outside) the `with _Lock_:`
   block: on a successful call the lock is released before the event is
   set, and when the wrapped target raises, the `with` block releases the
   lock but `_Event_.set()` is skipped entirely;
 * an interleaving small-step system of N threads each performing K
   guarded increments of a shared counter, for the mutual-exclusion claim.
-/

namespace SyncDec

/-- Classification of a class member by the string-representation test at
lines 202-204 of the source: `method` / `function` / `slot` stand for the
members whose `str()` contains `<method`, `<function`, `<slot`
respectively; `data` is every other member (plain attributes, properties,
staticmethod objects, ...). -/
inductive MemberKind where
  | method
  | function
  | slot
  | data
  deriving DecidableEq, Repr

/-- The test at lines 202-204: the member is wrapped iff its string
representation contains `<method`, `<function` or `<slot`. -/
def isInvocable : MemberKind → Bool
  | .method => true
  | .function => true
  | .slot => true
  | .data => false

/-- An operation: either an original body (identified by a number), or a
`Wrapper` closure produced by `Synchronized`, carrying the
`MemberSynchronized` tag (line 210) when it wraps a class member. One call
of a wrapper calls its inner target exactly once (line 331). -/
inductive Oper where
  | orig (id : Nat)
  | wrapped (memberTag : Bool) (inner : Oper)
  deriving DecidableEq, Repr

/-- Number of `Wrapper` layers around the original body. -/
def Oper.wrapDepth : Oper → Nat
  | .orig _ => 0
  | .wrapped _ f => f.wrapDepth + 1

/-- How many times one outer call executes the original body: a wrapper
calls its target exactly once (line 331). -/
def Oper.origRuns : Oper → Nat
  | .orig _ => 1
  | .wrapped _ f => f.origRuns

/-- A class object: the `ClassSynchronized` flag (lines 182, 221) and the
member list as enumerated by `inspect.getmembers_static` (line 187). -/
structure ClassObj where
  classSynchronized : Bool
  members : List (String × MemberKind × Oper)
  deriving DecidableEq, Repr

/-- The fixed exclusion list at lines 194-199. -/
def excludedNames : List String :=
  ["__repr__", "__format__", "__str__", "__getattribute__", "__init__", "__new__"]

/-- Lines 194-216, for a single member: skip the six excluded names;
wrap the member iff the string-representation test passes, tagging the
wrapper with `MemberSynchronized`; leave every other member unchanged. -/
def transformMember : String × MemberKind × Oper → String × MemberKind × Oper
  | (name, kind, f) =>
    if name ∈ excludedNames then (name, kind, f)
    else if isInvocable kind then (name, kind, .wrapped true f)
    else (name, kind, f)

/-- Lines 182-221: if the class does not yet carry `ClassSynchronized`,
replace every member per `transformMember` and set the flag; otherwise do
nothing. This runs once per instantiation of the class. -/
def synchronizeClass (c : ClassObj) : ClassObj :=
  if c.classSynchronized then c
  else { classSynchronized := true, members := c.members.map transformMember }

/-- The lock/event pair attached to a guarded entity, abstracted to the
states the protocol reads and writes: whether the (reentrant) lock is held
and whether the event is set. -/
structure SyncState where
  lockHeld : Bool
  eventSet : Bool
  deriving DecidableEq, Repr

/-- Lines 239-244: the state attached to a freshly constructed instance:
a new `RLock` (not held) and a new `Event` on which `.set()` was called. -/
def mkInstanceSyncState : SyncState :=
  { lockHeld := false, eventSet := true }

/-- The protocol actions of one guarded call, in source order:
`with _Lock_:` entry (line 311), `_Event_.wait()` (319),
`_Event_.clear()` (325), the call of the target (331), the release on
leaving the `with` block (336-338), `_Event_.set()` (344). -/
inductive ProtoStep where
  | acquireLock
  | waitEvent
  | clearEvent
  | execute
  | releaseLock
  | setEvent
  deriving DecidableEq, Repr

/-- Outcome of a guarded call in a sequential (single-caller) run:
the call returns a value, propagates an exception raised by the target,
or blocks forever (no other thread will ever release the lock or set the
event in a sequential run). -/
inductive CallResult (E V : Type) where
  | returned (v : V)
  | raised (e : E)
  | blocked
  deriving DecidableEq, Repr

/-- Result of one guarded call: what the caller observes, the final
lock/event state, and the protocol actions performed, in order. -/
structure CallOutcome (E V : Type) where
  result : CallResult E V
  state : SyncState
  trace : List ProtoStep
  deriving DecidableEq, Repr

/-- Lines 307-348, run by a single caller from state `st`, where `r` is
the outcome the original target produces on the given arguments.
`with _Lock_:` blocks if the lock is held (by another caller);
`_Event_.wait()` blocks if the event is cleared. On a normal return the
lock is released by the `with` block and then `_Event_.set()` runs
(line 344). When the target raises, the `with` block still releases the
lock, but the exception propagates past line 344, so `_Event_.set()` is
skipped and the event stays cleared. -/
def guardedCall (st : SyncState) (r : Except E V) : CallOutcome E V :=
  if st.lockHeld then
    { result := .blocked, state := st, trace := [] }
  else
    let st1 : SyncState := { st with lockHeld := true }
    if st1.eventSet = false then
      { result := .blocked, state := st1, trace := [.acquireLock] }
    else
      match r with
      | .ok v =>
          { result := .returned v,
            state := { lockHeld := false, eventSet := true },
            trace := [.acquireLock, .waitEvent, .clearEvent, .execute,
                      .releaseLock, .setEvent] }
      | .error e =>
          { result := .raised e,
            state := { lockHeld := false, eventSet := false },
            trace := [.acquireLock, .waitEvent, .clearEvent, .execute,
                      .releaseLock] }

/-- The attributes a standalone decorated function object carries:
`_Lock_` (the id of the stored `RLock`, if any) and `_Event_` (the id of
the stored `Event` and whether it is set, if any). Fresh functions have
neither. -/
structure FuncAttrs where
  lockAttr : Option Nat
  eventAttr : Option (Nat × Bool)
  deriving DecidableEq, Repr

/-- Lines 289-300: on a call of a standalone wrapped function, create and
store `_Lock_` if absent (`threading.RLock()`), then create and store
`_Event_` if absent (`threading.Event()` — note: no `.set()` is called on
it, so the stored event is created cleared). `alloc` is a fresh-id
counter standing for Python object allocation. Returns the updated
attributes and counter. -/
def ensureStandaloneSync (f : FuncAttrs) (alloc : Nat) : FuncAttrs × Nat :=
  let p :=
    match f.lockAttr with
    | none => ({ f with lockAttr := some alloc }, alloc + 1)
    | some _ => (f, alloc)
  match p.1.eventAttr with
  | none => ({ p.1 with eventAttr := some (p.2, false) }, p.2 + 1)
  | some _ => p

/-- One call of a standalone wrapped function (lines 289-348): look up or
create the `_Lock_` / `_Event_` attributes, then run the guarded-call
protocol against them, writing the event's final set-state back to the
attribute (the event object is shared across calls). The `none` branch of
the match is unreachable: `ensureStandaloneSync` always stores an event. -/
def standaloneCall (f : FuncAttrs) (alloc : Nat) (r : Except E V) :
    CallResult E V × FuncAttrs × Nat :=
  let p := ensureStandaloneSync f alloc
  match p.1.eventAttr with
  | some (eid, isSet) =>
      let out := guardedCall { lockHeld := false, eventSet := isSet } r
      (out.result, { p.1 with eventAttr := some (eid, out.state.eventSet) }, p.2)
  | none => (.blocked, p.1, p.2)

/-- The receiver seen as `args[0]` by a member wrapper: whether it carries
the `_Lock_` and `_Event_` attributes, and the lock/event state when it
does. -/
structure PyReceiver where
  hasLockAttr : Bool
  hasEventAttr : Bool
  syncState : SyncState
  deriving DecidableEq, Repr

/-- The exceptions the lock lookup at lines 277-278 can raise before any
protocol step: `args[0]` on an empty `args` tuple raises `IndexError`;
`getattr` on a receiver lacking the attribute raises `AttributeError`. -/
inductive LookupErr where
  | indexError
  | attributeError (attr : String)
  deriving DecidableEq, Repr

/-- Lines 277-278: `_Lock_ = getattr(args[0], '_Lock_')` then
`_Event_ = getattr(args[0], '_Event_')`, with no guard on `args` being
nonempty or on the attributes existing. -/
def locateSyncState (args : List PyReceiver) : Except LookupErr SyncState :=
  match args with
  | [] => .error .indexError
  | rc :: _ =>
      if rc.hasLockAttr = false then .error (.attributeError "_Lock_")
      else if rc.hasEventAttr = false then .error (.attributeError "_Event_")
      else .ok rc.syncState

/-- What the caller of a member-tagged wrapper observes: the target's
value, an exception raised by the target, an exception raised by the lock
lookup itself, or a blocked call. -/
inductive MemberCallResult (E V : Type) where
  | returned (v : V)
  | raised (e : E)
  | lookupFailed (e : LookupErr)
  | blocked
  deriving DecidableEq, Repr

/-- A member-tagged wrapper call (lines 262-348): locate the lock/event
through `args[0]`; if the lookup raises, the exception propagates before
any protocol step runs and every receiver is left unchanged; otherwise run
the guarded-call protocol on the receiver's state and write the resulting
state back to the receiver. Returns the observed result, the protocol
trace, and the (possibly updated) argument list. -/
def memberCall (args : List PyReceiver) (r : Except E V) :
    MemberCallResult E V × List ProtoStep × List PyReceiver :=
  match locateSyncState args with
  | .error e => (.lookupFailed e, [], args)
  | .ok st =>
      let out := guardedCall st r
      let res : MemberCallResult E V :=
        match out.result with
        | .returned v => .returned v
        | .raised e => .raised e
        | .blocked => .blocked
      match args with
      | [] => (res, out.trace, args)
      | rc :: rest => (res, out.trace, { rc with syncState := out.state } :: rest)

/-- An instance of a wrapped class, as built at lines 226-248: the ids of
the fresh `RLock` and `Event` attached to it and its lock/event state. -/
structure GuardedInstance where
  lockId : Nat
  eventId : Nat
  syncState : SyncState
  deriving DecidableEq, Repr

/-- Lines 239-248: construct one instance: allocate a fresh `RLock` and a
fresh `Event`, call `.set()` on the event, attach both. `alloc` is the
fresh-id counter. -/
def constructInstance (alloc : Nat) : GuardedInstance × Nat :=
  ({ lockId := alloc, eventId := alloc + 1, syncState := mkInstanceSyncState },
   alloc + 2)

/-- `n` successive instance constructions from allocator state `alloc`. -/
def constructMany : Nat → Nat → List GuardedInstance × Nat
  | 0, alloc => ([], alloc)
  | n + 1, alloc =>
      let p := constructInstance alloc
      let q := constructMany n p.2
      (p.1 :: q.1, q.2)

/-- A guarded call on the `i`-th of a family of instances: only that
instance's lock/event state is read or written. -/
def callAt (insts : List GuardedInstance) (i : Nat) (r : Except E V) :
    List GuardedInstance :=
  match insts[i]? with
  | none => insts
  | some g =>
      insts.set i { g with syncState := (guardedCall g.syncState r).state }

/-- Program counter of one thread repeatedly running a guarded increment
of a shared counter through the wrapper (lines 307-348). The guarded body
is split into its read (`body0` → `body1 tmp`) and write (`body1 tmp` →
`exitRegion`) so that mutual exclusion is what makes the increment atomic.
`rearm` sits after the lock release, matching `_Event_.set()` at line 344
being outside the `with` block. -/
inductive TPC where
  | ready
  | waitEv
  | sig
  | body0
  | body1 (tmp : Nat)
  | exitRegion
  | rearm
  | done
  deriving DecidableEq, Repr

/-- One thread's state: its program counter and how many guarded
increments it has completed. -/
structure ThreadSt where
  pc : TPC
  did : Nat
  deriving DecidableEq, Repr

/-- Global state of `n` threads hammering one shared guarded instance:
the `RLock` owner (no call nests here, so plain ownership), the event's
set-state, the shared counter, and every thread's local state. -/
@[ext]
structure Sys (n : Nat) where
  owner : Option (Fin n)
  event : Bool
  counter : Nat
  thr : Fin n → ThreadSt

/-- Initial state: lock free, event set (the instance was just
constructed, lines 239-244), counter zero, every thread about to make its
first call. -/
def initSys (n : Nat) : Sys n :=
  { owner := none, event := true, counter := 0,
    thr := fun _ => { pc := .ready, did := 0 } }

/-- Interleaving small-step semantics: each constructor is one atomic
action of one thread running the protocol of lines 307-348, `K` the number
of guarded increments each thread performs.
`acquire` is `with _Lock_:` entry (blocks until the lock is free);
`waitEvent` is `_Event_.wait()` (enabled only when the event is set);
`clearEvent` is `_Event_.clear()`; `load` / `store` are the guarded
increment's read and write of the shared counter; `release` is the lock
release on leaving the `with` block; `setEvent` is the `_Event_.set()`
after it, after which the thread loops back for its next call; `finish`
retires a thread that has completed its `K` calls. -/
inductive Step (n K : Nat) : Sys n → Sys n → Prop where
  | acquire (s : Sys n) (i : Fin n) :
      s.owner = none → (s.thr i).pc = .ready → (s.thr i).did < K →
      Step n K s { s with owner := some i,
                          thr := Function.update s.thr i
                            { s.thr i with pc := .waitEv } }
  | waitEvent (s : Sys n) (i : Fin n) :
      (s.thr i).pc = .waitEv → s.event = true →
      Step n K s { s with thr := Function.update s.thr i
                            { s.thr i with pc := .sig } }
  | clearEvent (s : Sys n) (i : Fin n) :
      (s.thr i).pc = .sig →
      Step n K s { s with event := false,
                          thr := Function.update s.thr i
                            { s.thr i with pc := .body0 } }
  | load (s : Sys n) (i : Fin n) :
      (s.thr i).pc = .body0 →
      Step n K s { s with thr := Function.update s.thr i
                            { s.thr i with pc := .body1 s.counter } }
  | store (s : Sys n) (i : Fin n) (tmp : Nat) :
      (s.thr i).pc = .body1 tmp →
      Step n K s { s with counter := tmp + 1,
                          thr := Function.update s.thr i
                            { pc := .exitRegion, did := (s.thr i).did + 1 } }
  | release (s : Sys n) (i : Fin n) :
      (s.thr i).pc = .exitRegion →
      Step n K s { s with owner := none,
                          thr := Function.update s.thr i
                            { s.thr i with pc := .rearm } }
  | setEvent (s : Sys n) (i : Fin n) :
      (s.thr i).pc = .rearm →
      Step n K s { s with event := true,
                          thr := Function.update s.thr i
                            { s.thr i with pc := .ready } }
  | finish (s : Sys n) (i : Fin n) :
      (s.thr i).pc = .ready → (s.thr i).did = K →
      Step n K s { s with thr := Function.update s.thr i
                            { s.thr i with pc := .done } }

/-- States reachable from the initial state by interleaved steps. -/
def Reachable (n K : Nat) (s : Sys n) : Prop :=
  Relation.ReflTransGen (Step n K) (initSys n) s

/-- Program counters at which a thread is inside the `with _Lock_:`
block. -/
def inLockRegion : TPC → Bool
  | .waitEv => true
  | .sig => true
  | .body0 => true
  | .body1 _ => true
  | .exitRegion => true
  | _ => false

/-- Program counters at which a thread is executing the guarded body. -/
def executingBody : TPC → Bool
  | .body0 => true
  | .body1 _ => true
  | _ => false

/-- The inductive invariant of the system: every thread inside the `with`
block owns the lock; the counter equals the total number of completed
increments; a thread that has read the counter read its current value; a
retired thread completed all `K` increments. -/
structure SysInv (n K : Nat) (s : Sys n) : Prop where
  ownerHolds : ∀ i : Fin n, inLockRegion (s.thr i).pc = true → s.owner = some i
  counterSum : s.counter = ∑ i : Fin n, (s.thr i).did
  loadedVal : ∀ (i : Fin n) (tmp : Nat), (s.thr i).pc = .body1 tmp → tmp = s.counter
  doneDid : ∀ i : Fin n, (s.thr i).pc = .done → (s.thr i).did = K

lemma sum_update_did {n : Nat} (f : Fin n → ThreadSt) (i : Fin n) (t : ThreadSt) :
    ∑ j : Fin n, (Function.update f i t j).did
      = t.did + ∑ j ∈ Finset.univ.erase i, (f j).did := by
  have h1 : ∀ j : Fin n, (Function.update f i t j).did
      = Function.update (fun k => (f k).did) i t.did j := by
    intro j
    by_cases hji : j = i
    · subst hji; simp
    · simp [Function.update_noteq hji]
  calc ∑ j : Fin n, (Function.update f i t j).did
      = ∑ j : Fin n, Function.update (fun k => (f k).did) i t.did j :=
        Finset.sum_congr rfl (fun j _ => h1 j)
    _ = t.did + ∑ j ∈ Finset.univ \ {i}, (f j).did :=
        Finset.sum_update_of_mem (Finset.mem_univ i) _ _
    _ = t.did + ∑ j ∈ Finset.univ.erase i, (f j).did := by
        rw [Finset.sdiff_singleton_eq_erase]

lemma sum_did_split {n : Nat} (f : Fin n → ThreadSt) (i : Fin n) :
    ∑ j : Fin n, (f j).did = (f i).did + ∑ j ∈ Finset.univ.erase i, (f j).did :=
  (Finset.add_sum_erase _ _ (Finset.mem_univ i)).symm

lemma sum_update_did_eq {n : Nat} (f : Fin n → ThreadSt) (i : Fin n) (t : ThreadSt)
    (h : t.did = (f i).did) :
    ∑ j : Fin n, (Function.update f i t j).did = ∑ j : Fin n, (f j).did := by
  rw [sum_update_did, h, ← sum_did_split]

lemma sum_update_did_succ {n : Nat} (f : Fin n → ThreadSt) (i : Fin n) (t : ThreadSt)
    (h : t.did = (f i).did + 1) :
    ∑ j : Fin n, (Function.update f i t j).did = (∑ j : Fin n, (f j).did) + 1 := by
  rw [sum_update_did, h, sum_did_split f i]
  omega

lemma sysInv_init (n K : Nat) : SysInv n K (initSys n) := by
  refine ⟨?_, ?_, ?_, ?_⟩
  · intro i h; simp [initSys, inLockRegion] at h
  · simp [initSys]
  · intro i tmp h; simp [initSys] at h
  · intro i h; simp [initSys] at h

lemma sysInv_step {n K : Nat} {s t : Sys n} (inv : SysInv n K s) (h : Step n K s t) :
    SysInv n K t := by
  cases h with
  | acquire i hown hpc hdid =>
      refine ⟨?_, ?_, ?_, ?_⟩ <;> dsimp only
      · intro j hj
        by_cases hji : j = i
        · subst hji; rfl
        · rw [Function.update_noteq hji] at hj
          exact absurd (inv.ownerHolds j hj) (by rw [hown]; simp)
      · rw [sum_update_did_eq s.thr i { pc := TPC.waitEv, did := (s.thr i).did } rfl]
        exact inv.counterSum
      · intro j tmp hj
        by_cases hji : j = i
        · subst hji; simp [Function.update_same] at hj
        · rw [Function.update_noteq hji] at hj
          exact inv.loadedVal j tmp hj
      · intro j hj
        by_cases hji : j = i
        · subst hji; simp [Function.update_same] at hj
        · rw [Function.update_noteq hji] at hj ⊢
          exact inv.doneDid j hj
  | waitEvent i hpc hev =>
      refine ⟨?_, ?_, ?_, ?_⟩ <;> dsimp only
      · intro j hj
        by_cases hji : j = i
        · subst hji
          exact inv.ownerHolds j (by rw [hpc]; rfl)
        · rw [Function.update_noteq hji] at hj
          exact inv.ownerHolds j hj
      · rw [sum_update_did_eq s.thr i { pc := TPC.sig, did := (s.thr i).did } rfl]
        exact inv.counterSum
      · intro j tmp hj
        by_cases hji : j = i
        · subst hji; simp [Function.update_same] at hj
        · rw [Function.update_noteq hji] at hj
          exact inv.loadedVal j tmp hj
      · intro j hj
        by_cases hji : j = i
        · subst hji; simp [Function.update_same] at hj
        · rw [Function.update_noteq hji] at hj ⊢
          exact inv.doneDid j hj
  | clearEvent i hpc =>
      refine ⟨?_, ?_, ?_, ?_⟩ <;> dsimp only
      · intro j hj
        by_cases hji : j = i
        · subst hji
          exact inv.ownerHolds j (by rw [hpc]; rfl)
        · rw [Function.update_noteq hji] at hj
          exact inv.ownerHolds j hj
      · rw [sum_update_did_eq s.thr i { pc := TPC.body0, did := (s.thr i).did } rfl]
        exact inv.counterSum
      · intro j tmp hj
        by_cases hji : j = i
        · subst hji; simp [Function.update_same] at hj
        · rw [Function.update_noteq hji] at hj
          exact inv.loadedVal j tmp hj
      · intro j hj
        by_cases hji : j = i
        · subst hji; simp [Function.update_same] at hj
        · rw [Function.update_noteq hji] at hj ⊢
          exact inv.doneDid j hj
  | load i hpc =>
      refine ⟨?_, ?_, ?_, ?_⟩ <;> dsimp only
      · intro j hj
        by_cases hji : j = i
        · subst hji
          exact inv.ownerHolds j (by rw [hpc]; rfl)
        · rw [Function.update_noteq hji] at hj
          exact inv.ownerHolds j hj
      · rw [sum_update_did_eq s.thr i { pc := TPC.body1 s.counter, did := (s.thr i).did } rfl]
        exact inv.counterSum
      · intro j tmp hj
        by_cases hji : j = i
        · subst hji
          rw [Function.update_same] at hj
          cases hj
          rfl
        · rw [Function.update_noteq hji] at hj
          exact inv.loadedVal j tmp hj
      · intro j hj
        by_cases hji : j = i
        · subst hji; simp [Function.update_same] at hj
        · rw [Function.update_noteq hji] at hj ⊢
          exact inv.doneDid j hj
  | store i tmp hpc =>
      have htmp : tmp = s.counter := inv.loadedVal i tmp hpc
      refine ⟨?_, ?_, ?_, ?_⟩ <;> dsimp only
      · intro j hj
        by_cases hji : j = i
        · subst hji
          exact inv.ownerHolds j (by rw [hpc]; rfl)
        · rw [Function.update_noteq hji] at hj
          exact inv.ownerHolds j hj
      · rw [sum_update_did_succ s.thr i { pc := TPC.exitRegion, did := (s.thr i).did + 1 } rfl, htmp, inv.counterSum]
      · intro j tmp2 hj
        by_cases hji : j = i
        · subst hji; simp [Function.update_same] at hj
        · rw [Function.update_noteq hji] at hj
          have h1 : s.owner = some j := inv.ownerHolds j (by rw [hj]; rfl)
          have h2 : s.owner = some i := inv.ownerHolds i (by rw [hpc]; rfl)
          exact absurd (Option.some.inj (h1.symm.trans h2)) hji
      · intro j hj
        by_cases hji : j = i
        · subst hji; simp [Function.update_same] at hj
        · rw [Function.update_noteq hji] at hj ⊢
          exact inv.doneDid j hj
  | release i hpc =>
      refine ⟨?_, ?_, ?_, ?_⟩ <;> dsimp only
      · intro j hj
        by_cases hji : j = i
        · subst hji; simp [Function.update_same, inLockRegion] at hj
        · rw [Function.update_noteq hji] at hj
          have h1 : s.owner = some j := inv.ownerHolds j hj
          have h2 : s.owner = some i := inv.ownerHolds i (by rw [hpc]; rfl)
          exact absurd (Option.some.inj (h1.symm.trans h2)) hji
      · rw [sum_update_did_eq s.thr i { pc := TPC.rearm, did := (s.thr i).did } rfl]
        exact inv.counterSum
      · intro j tmp hj
        by_cases hji : j = i
        · subst hji; simp [Function.update_same] at hj
        · rw [Function.update_noteq hji] at hj
          exact inv.loadedVal j tmp hj
      · intro j hj
        by_cases hji : j = i
        · subst hji; simp [Function.update_same] at hj
        · rw [Function.update_noteq hji] at hj ⊢
          exact inv.doneDid j hj
  | setEvent i hpc =>
      refine ⟨?_, ?_, ?_, ?_⟩ <;> dsimp only
      · intro j hj
        by_cases hji : j = i
        · subst hji; simp [Function.update_same, inLockRegion] at hj
        · rw [Function.update_noteq hji] at hj
          exact inv.ownerHolds j hj
      · rw [sum_update_did_eq s.thr i { pc := TPC.ready, did := (s.thr i).did } rfl]
        exact inv.counterSum
      · intro j tmp hj
        by_cases hji : j = i
        · subst hji; simp [Function.update_same] at hj
        · rw [Function.update_noteq hji] at hj
          exact inv.loadedVal j tmp hj
      · intro j hj
        by_cases hji : j = i
        · subst hji; simp [Function.update_same] at hj
        · rw [Function.update_noteq hji] at hj ⊢
          exact inv.doneDid j hj
  | finish i hpc hdid =>
      refine ⟨?_, ?_, ?_, ?_⟩ <;> dsimp only
      · intro j hj
        by_cases hji : j = i
        · subst hji; simp [Function.update_same, inLockRegion] at hj
        · rw [Function.update_noteq hji] at hj
          exact inv.ownerHolds j hj
      · rw [sum_update_did_eq s.thr i { pc := TPC.done, did := (s.thr i).did } rfl]
        exact inv.counterSum
      · intro j tmp hj
        by_cases hji : j = i
        · subst hji; simp [Function.update_same] at hj
        · rw [Function.update_noteq hji] at hj
          exact inv.loadedVal j tmp hj
      · intro j hj
        by_cases hji : j = i
        · subst hji
          rw [Function.update_same]
          exact hdid
        · rw [Function.update_noteq hji] at hj ⊢
          exact inv.doneDid j hj

lemma sysInv_reachable {n K : Nat} {s : Sys n} (h : Reachable n K s) :
    SysInv n K s := by
  induction h with
  | refl => exact sysInv_init n K
  | tail _ hstep ih => exact sysInv_step ih hstep

lemma origRuns_one (f : Oper) : f.origRuns = 1 := by
  induction f with
  | orig i => rfl
  | wrapped t g ih => exact ih

lemma synchronizeClass_flag (c : ClassObj) :
    (synchronizeClass c).classSynchronized = true := by
  by_cases h : c.classSynchronized
  · simp [synchronizeClass, h]
  · simp [synchronizeClass, h]

lemma synchronizeClass_idem (c : ClassObj) :
    synchronizeClass (synchronizeClass c) = synchronizeClass c := by
  have h := synchronizeClass_flag c
  conv_lhs => rw [synchronizeClass]
  rw [if_pos h]

lemma synchronizeClass_iterate (c : ClassObj) (k : Nat) :
    synchronizeClass^[k + 1] c = synchronizeClass c := by
  induction k with
  | zero => rfl
  | succ k ih =>
      rw [Function.iterate_succ_apply', ih, synchronizeClass_idem]

/-- A small concrete class used by the witnesses: one plain method, one
excluded member, one non-invocable data member. -/
def sampleClass : ClassObj :=
  { classSynchronized := false,
    members := [("get", MemberKind.method, Oper.orig 0),
                ("__repr__", MemberKind.method, Oper.orig 1),
                ("size", MemberKind.data, Oper.orig 2)] }

/-- C1: the claim says a failing guarded call still reopens the signal
before propagating the error, so a failing call followed by a succeeding
call on the same instance succeeds. Evaluating the embedded wrapper at
that input: the error does propagate and the lock is released, but
`_Event_.set()` (line 344) sits outside the `with` block and is skipped
when the target raises, so the event stays cleared and the next call on
the same instance blocks forever instead of succeeding. -/
theorem C1_failing_eval :
    (guardedCall mkInstanceSyncState (Except.error () : Except Unit Nat)).result
        = CallResult.raised () ∧
    (guardedCall mkInstanceSyncState (Except.error () : Except Unit Nat)).state.lockHeld
        = false ∧
    (guardedCall mkInstanceSyncState (Except.error () : Except Unit Nat)).state.eventSet
        = false ∧
    (guardedCall
        (guardedCall mkInstanceSyncState (Except.error () : Except Unit Nat)).state
        (Except.ok (7 : Nat) : Except Unit Nat)).result = CallResult.blocked := by
  refine ⟨rfl, rfl, rfl, rfl⟩

/-- C2: the claim says every freshly created SynchronizationState has its
signal initially set, for the instance path and for the lazy standalone
path alike. The instance path (lines 239-244) does call `_Event_.set()`,
but the standalone path (lines 294-297) creates `threading.Event()`
without setting it, so the first call of a standalone wrapped function
blocks forever in `_Event_.wait()`. -/
theorem C2_standalone_eval :
    mkInstanceSyncState.eventSet = true ∧
    (ensureStandaloneSync { lockAttr := none, eventAttr := none } 0).1.eventAttr
        = some (1, false) ∧
    (standaloneCall { lockAttr := none, eventAttr := none } 0
        (Except.ok (42 : Nat) : Except Unit Nat)).1 = CallResult.blocked := by
  refine ⟨rfl, rfl, rfl⟩

/-- C3 counterexample: the claim says the signal is reopened strictly
before the lock is released. In the trace of a successful guarded call
from a fresh instance state both actions occur, but the signal reopening
does not precede the lock release (line 344 runs after the `with` block
exits). -/
theorem C3_counterexample :
    ProtoStep.setEvent
        ∈ (guardedCall mkInstanceSyncState (Except.ok (0 : Nat) : Except Unit Nat)).trace ∧
    ProtoStep.releaseLock
        ∈ (guardedCall mkInstanceSyncState (Except.ok (0 : Nat) : Except Unit Nat)).trace ∧
    ¬ ((guardedCall mkInstanceSyncState (Except.ok (0 : Nat) : Except Unit Nat)).trace.indexOf
          ProtoStep.setEvent
        < (guardedCall mkInstanceSyncState (Except.ok (0 : Nat) : Except Unit Nat)).trace.indexOf
          ProtoStep.releaseLock) := by
  refine ⟨by decide, by decide, by decide⟩

/-- C3 as amended: for every guarded call entered with the lock free and
the signal open, the steps occur in the order acquire lock, wait for the
signal, clear the signal, execute the operation, release the lock, and
only then re-arm the signal — the signal is reopened strictly after the
lock is released, and not at all when the operation raises. -/
theorem C3_ordering {E V : Type} (st : SyncState) (r : Except E V)
    (hl : st.lockHeld = false) (he : st.eventSet = true) :
    (guardedCall st r).trace
      = [ProtoStep.acquireLock, ProtoStep.waitEvent, ProtoStep.clearEvent,
         ProtoStep.execute, ProtoStep.releaseLock]
        ++ (match r with
            | .ok _ => [ProtoStep.setEvent]
            | .error _ => []) := by
  cases r <;> simp [guardedCall, hl, he]

/-- Witness for C3: the amended ordering evaluated on a concrete
successful call from a fresh instance state. -/
theorem C3_ordering_witness :
    mkInstanceSyncState.lockHeld = false ∧ mkInstanceSyncState.eventSet = true ∧
    (guardedCall mkInstanceSyncState (Except.ok (5 : Nat) : Except Unit Nat)).trace
      = [ProtoStep.acquireLock, ProtoStep.waitEvent, ProtoStep.clearEvent,
         ProtoStep.execute, ProtoStep.releaseLock] ++ [ProtoStep.setEvent] :=
  ⟨rfl, rfl, C3_ordering mkInstanceSyncState (Except.ok (5 : Nat)) rfl rfl⟩

/-- C4: the type-level transformation is idempotent: instantiating the
class any number of further times transforms it no further; every
eligible member is wrapped exactly once (wrap depth 1, member-tagged) and
one call of any member executes the original body exactly once; no member
is ever doubly wrapped. -/
theorem C4_idempotent (c : ClassObj) (k : Nat)
    (hflag : c.classSynchronized = false)
    (hfresh : ∀ m ∈ c.members, (m.2.2).wrapDepth = 0) :
    (synchronizeClass^[k + 1] c = synchronizeClass c) ∧
    ((synchronizeClass^[k + 1] c).members = c.members.map transformMember) ∧
    (∀ m ∈ c.members, m.1 ∉ excludedNames → isInvocable m.2.1 = true →
        (transformMember m).2.2 = Oper.wrapped true m.2.2 ∧
        (transformMember m).2.2.wrapDepth = 1) ∧
    (∀ m ∈ (synchronizeClass^[k + 1] c).members,
        (m.2.2).wrapDepth ≤ 1 ∧ (m.2.2).origRuns = 1) := by
  have hit := synchronizeClass_iterate c k
  have hmem : (synchronizeClass c).members = c.members.map transformMember := by
    simp [synchronizeClass, hflag]
  refine ⟨hit, by rw [hit, hmem], ?_, ?_⟩
  · rintro ⟨name, kind, f⟩ hm hnx hinv
    have hd : f.wrapDepth = 0 := hfresh ⟨name, kind, f⟩ hm
    have ht : transformMember (name, kind, f) = (name, kind, Oper.wrapped true f) := by
      simp [transformMember, hnx, hinv]
    rw [ht]
    exact ⟨rfl, by simp [Oper.wrapDepth, hd]⟩
  · intro m hm
    rw [hit, hmem] at hm
    rcases List.mem_map.mp hm with ⟨⟨name, kind, f⟩, hm0, hval⟩
    have hd : f.wrapDepth = 0 := hfresh ⟨name, kind, f⟩ hm0
    subst hval
    refine ⟨?_, origRuns_one _⟩
    by_cases hnx : name ∈ excludedNames
    · simp [transformMember, hnx, hd]
    · by_cases hinv : isInvocable kind = true
      · simp [transformMember, hnx, hinv, Oper.wrapDepth, hd]
      · simp [transformMember, hnx, hinv, hd]

/-- Witness for C4 on a concrete three-member class. -/
theorem C4_idempotent_witness :
    sampleClass.classSynchronized = false ∧
    (∀ m ∈ sampleClass.members, (m.2.2).wrapDepth = 0) ∧
    synchronizeClass^[2] sampleClass = synchronizeClass sampleClass :=
  ⟨rfl, by decide, (C4_idempotent sampleClass 1 rfl (by decide)).1⟩

/-- C5: the claim says the guarded entity behaves exactly like the
original except for serialization: same value, errors propagated
unchanged, nothing swallowed. For a standalone wrapped callable this
fails at the very first input: the call blocks forever on the never-set
event instead of returning the value the original returns. -/
theorem C5_standalone_divergence :
    (standaloneCall { lockAttr := none, eventAttr := none } 0
        (Except.ok (42 : Nat) : Except Unit Nat)).1 = CallResult.blocked ∧
    (CallResult.blocked : CallResult Unit Nat) ≠ CallResult.returned 42 ∧
    (guardedCall mkInstanceSyncState (Except.ok (42 : Nat) : Except Unit Nat)).result
        = CallResult.returned 42 := by
  refine ⟨rfl, by decide, rfl⟩

/-- C6: a standalone wrapped callable creates its SynchronizationState on
the first call, stores it on the callable itself, and every later call
reuses that same stored state (same lock id, same event id, no further
allocation). -/
theorem C6_standalone_state_reuse (f : FuncAttrs) (a : Nat)
    (hl : f.lockAttr = none) (he : f.eventAttr = none) :
    ((ensureStandaloneSync f a).1.lockAttr = some a ∧
     (ensureStandaloneSync f a).1.eventAttr = some (a + 1, false) ∧
     (ensureStandaloneSync f a).2 = a + 2) ∧
    (∀ b : Nat, ensureStandaloneSync (ensureStandaloneSync f a).1 b
        = ((ensureStandaloneSync f a).1, b)) ∧
    (∀ (b : Nat) (r : Except Unit Nat),
        (standaloneCall (ensureStandaloneSync f a).1 b r).2.1.lockAttr = some a ∧
        ((standaloneCall (ensureStandaloneSync f a).1 b r).2.1.eventAttr.map Prod.fst
            = some (a + 1)) ∧
        (standaloneCall (ensureStandaloneSync f a).1 b r).2.2 = b) := by
  have h1 : ensureStandaloneSync f a
      = ({ lockAttr := some a, eventAttr := some (a + 1, false) }, a + 2) := by
    simp [ensureStandaloneSync, hl, he]
  refine ⟨by rw [h1]; exact ⟨rfl, rfl, rfl⟩, ?_, ?_⟩
  · intro b
    rw [h1]
    simp [ensureStandaloneSync]
  · intro b r
    rw [h1]
    simp [standaloneCall, ensureStandaloneSync]

/-- Witness for C6 at a concrete fresh callable and allocator state. -/
theorem C6_standalone_state_reuse_witness :
    (ensureStandaloneSync { lockAttr := none, eventAttr := none } 5).1.lockAttr = some 5 ∧
    ensureStandaloneSync
        (ensureStandaloneSync { lockAttr := none, eventAttr := none } 5).1 9
      = ((ensureStandaloneSync { lockAttr := none, eventAttr := none } 5).1, 9) :=
  ⟨(C6_standalone_state_reuse { lockAttr := none, eventAttr := none } 5 rfl rfl).1.1,
   (C6_standalone_state_reuse { lockAttr := none, eventAttr := none } 5 rfl rfl).2.1 9⟩

/-- C7: wrapping a composite type skips exactly the six-name exclusion
set, wraps every remaining invocable member into a member-tagged
WrappedOperation, and leaves non-invocable members alone. -/
theorem C7_member_enumeration (c : ClassObj) (hflag : c.classSynchronized = false) :
    excludedNames = ["__repr__", "__format__", "__str__", "__getattribute__",
        "__init__", "__new__"] ∧
    (synchronizeClass c).members = c.members.map transformMember ∧
    (∀ (name : String) (kind : MemberKind) (f : Oper),
      (name ∈ excludedNames → transformMember (name, kind, f) = (name, kind, f)) ∧
      (name ∉ excludedNames → isInvocable kind = true →
        transformMember (name, kind, f) = (name, kind, Oper.wrapped true f)) ∧
      (name ∉ excludedNames → isInvocable kind = false →
        transformMember (name, kind, f) = (name, kind, f))) := by
  refine ⟨rfl, by simp [synchronizeClass, hflag], ?_⟩
  intro name kind f
  refine ⟨?_, ?_, ?_⟩
  · intro h; simp [transformMember, h]
  · intro h hinv; simp [transformMember, h, hinv]
  · intro h hinv; simp [transformMember, h, hinv]

/-- Witness for C7 on the concrete three-member class. -/
theorem C7_member_enumeration_witness :
    sampleClass.classSynchronized = false ∧
    (synchronizeClass sampleClass).members = sampleClass.members.map transformMember :=
  ⟨rfl, (C7_member_enumeration sampleClass rfl).2.1⟩

lemma constructMany_get (n a k : Nat) (hk : k < n) :
    (constructMany n a).1[k]?
      = some { lockId := a + 2 * k, eventId := a + 2 * k + 1,
               syncState := mkInstanceSyncState } := by
  induction n generalizing a k with
  | zero => omega
  | succ n ih =>
      cases k with
      | zero => simp [constructMany, constructInstance]
      | succ k =>
          have hk2 : k < n := by omega
          have hstep : (constructMany (n + 1) a).1
              = { lockId := a, eventId := a + 1, syncState := mkInstanceSyncState }
                :: (constructMany n (a + 2)).1 := by
            simp [constructMany, constructInstance]
          rw [hstep, List.getElem?_cons_succ, ih (a + 2) k hk2]
          have h1 : a + 2 + 2 * k = a + 2 * (k + 1) := by omega
          rw [h1]

/-- C8: every construction of an instance of a wrapped class allocates a
fresh lock and a fresh event (lines 239-244): instances built by distinct
constructions carry pairwise distinct lock and event ids, a guarded call
on one instance leaves every other instance's lock/event state untouched,
and a standalone wrapped callable whose `_Lock_`/`_Event_` are allocated
from any allocator range disjoint from the constructions' range (fresh
Python objects never alias) carries lock and event ids distinct from
every instance's lock and event ids, so standalone and member guarded
calls share no SynchronizationState and cannot contend. -/
theorem C8_fresh_and_independent {E V : Type} (n a i j b : Nat)
    (hi : i < n) (hj : j < n) (hij : i ≠ j)
    (hb : a + 2 * n ≤ b ∨ b + 2 ≤ a) :
    (constructMany n a).1[i]?
        = some { lockId := a + 2 * i, eventId := a + 2 * i + 1,
                 syncState := mkInstanceSyncState } ∧
    (∀ gi gj : GuardedInstance,
        (constructMany n a).1[i]? = some gi → (constructMany n a).1[j]? = some gj →
        gi.lockId ≠ gj.lockId ∧ gi.eventId ≠ gj.eventId ∧ gi.lockId ≠ gj.eventId) ∧
    (∀ r : Except E V,
        (callAt (constructMany n a).1 i r)[j]? = (constructMany n a).1[j]?) ∧
    ((ensureStandaloneSync { lockAttr := none, eventAttr := none } b).1.lockAttr
        = some b ∧
     (ensureStandaloneSync { lockAttr := none, eventAttr := none } b).1.eventAttr
        = some (b + 1, false)) ∧
    (∀ (k : Nat) (g : GuardedInstance), k < n → (constructMany n a).1[k]? = some g →
        g.lockId ≠ b ∧ g.lockId ≠ b + 1 ∧ g.eventId ≠ b ∧ g.eventId ≠ b + 1) := by
  have hgi := constructMany_get n a i hi
  have hgj := constructMany_get n a j hj
  refine ⟨hgi, ?_, ?_, ?_, ?_⟩
  · intro gi gj h1 h2
    rw [hgi] at h1
    rw [hgj] at h2
    cases h1
    cases h2
    refine ⟨by dsimp only; omega, by dsimp only; omega, by dsimp only; omega⟩
  · intro r
    unfold callAt
    rw [hgi]
    exact List.getElem?_set_ne hij
  · exact ⟨by simp [ensureStandaloneSync], by simp [ensureStandaloneSync]⟩
  · intro k g hk hget
    rw [constructMany_get n a k hk] at hget
    cases hget
    refine ⟨by dsimp only; omega, by dsimp only; omega,
            by dsimp only; omega, by dsimp only; omega⟩

/-- Witness for C8: two constructions from allocator state 0 and a
standalone callable allocated at 4, after them. -/
theorem C8_fresh_and_independent_witness :
    (constructMany 2 0).1[0]?
        = some { lockId := 0, eventId := 0 + 1, syncState := mkInstanceSyncState } ∧
    (callAt (constructMany 2 0).1 0 (Except.ok (3 : Nat) : Except Unit Nat))[1]?
        = (constructMany 2 0).1[1]? ∧
    (ensureStandaloneSync { lockAttr := none, eventAttr := none } 4).1.lockAttr
        = some 4 ∧
    ({ lockId := 0 + 2 * 0, eventId := 0 + 2 * 0 + 1,
       syncState := mkInstanceSyncState } : GuardedInstance).lockId ≠ 4 :=
  ⟨by
    have h := (C8_fresh_and_independent (E := Unit) (V := Nat) 2 0 0 1 4
        (by decide) (by decide) (by decide) (by decide)).1
    simpa using h,
   (C8_fresh_and_independent (E := Unit) (V := Nat) 2 0 0 1 4
        (by decide) (by decide) (by decide) (by decide)).2.2.1 (Except.ok 3),
   (C8_fresh_and_independent (E := Unit) (V := Nat) 2 0 0 1 4
        (by decide) (by decide) (by decide) (by decide)).2.2.2.1.1,
   ((C8_fresh_and_independent (E := Unit) (V := Nat) 2 0 0 1 4
        (by decide) (by decide) (by decide) (by decide)).2.2.2.2 0 _ (by decide)
      (C8_fresh_and_independent (E := Unit) (V := Nat) 2 0 0 1 4
        (by decide) (by decide) (by decide) (by decide)).1).1⟩

lemma executing_in_region (p : TPC) (h : executingBody p = true) :
    inLockRegion p = true := by
  cases p <;> simp_all [executingBody, inLockRegion]

/-- C9: for every reachable state of the interleaving system, at most one
thread is executing the guarded body (mutual exclusion), and if all `n`
threads have retired after `K` guarded increments each, the shared
counter is exactly `n * K`. -/
theorem C9_mutual_exclusion (n K : Nat) (s : Sys n) (h : Reachable n K s) :
    (∀ i j : Fin n, executingBody (s.thr i).pc = true →
        executingBody (s.thr j).pc = true → i = j) ∧
    ((∀ i : Fin n, (s.thr i).pc = TPC.done) → s.counter = n * K) := by
  have inv := sysInv_reachable h
  refine ⟨?_, ?_⟩
  · intro i j hi hj
    have h1 := inv.ownerHolds i (executing_in_region _ hi)
    have h2 := inv.ownerHolds j (executing_in_region _ hj)
    exact Option.some.inj (h1.symm.trans h2)
  · intro hall
    rw [inv.counterSum,
        Finset.sum_congr rfl (fun i _ => inv.doneDid i (hall i))]
    simp [Finset.sum_const, Finset.card_univ, smul_eq_mul]

/-- The state in which the single thread of a 1-thread, 1-increment run
has retired: counter 1, lock free, event set. -/
def doneSys : Sys 1 :=
  { owner := none, event := true, counter := 1,
    thr := fun _ => { pc := TPC.done, did := 1 } }

lemma doneSys_reachable : Reachable 1 1 doneSys := by
  have h0 : Reachable 1 1 (initSys 1) := Relation.ReflTransGen.refl
  have h1 := Relation.ReflTransGen.tail h0
    (Step.acquire (initSys 1) 0 rfl rfl (by decide))
  have h2 := Relation.ReflTransGen.tail h1 (Step.waitEvent _ 0 (by decide) (by decide))
  have h3 := Relation.ReflTransGen.tail h2 (Step.clearEvent _ 0 (by decide))
  have h4 := Relation.ReflTransGen.tail h3 (Step.load _ 0 (by decide))
  have h5 := Relation.ReflTransGen.tail h4 (Step.store _ 0 0 (by decide))
  have h6 := Relation.ReflTransGen.tail h5 (Step.release _ 0 (by decide))
  have h7 := Relation.ReflTransGen.tail h6 (Step.setEvent _ 0 (by decide))
  have h8 := Relation.ReflTransGen.tail h7 (Step.finish _ 0 (by decide) (by decide))
  convert h8 using 1
  refine Sys.ext ?_ ?_ ?_ ?_
  · rfl
  · rfl
  · rfl
  · funext x
    fin_cases x
    decide

/-- Witness for C9: the completed 1-thread, 1-increment run ends with the
counter at exactly 1 * 1. -/
theorem C9_mutual_exclusion_witness : doneSys.counter = 1 * 1 :=
  (C9_mutual_exclusion 1 1 doneSys doneSys_reachable).2 (fun _ => rfl)

/-- C10: a member-tagged wrapper reads `args[0]._Lock_` and
`args[0]._Event_` with no guard (lines 277-278): with zero positional
arguments it raises IndexError, and with a first argument lacking the
attributes it raises AttributeError, in both cases before any protocol
step runs (empty trace) and with every receiver left unchanged. -/
theorem C10_receiver_lookup {E V : Type} (args : List PyReceiver) (r : Except E V) :
    (args = [] →
      memberCall args r
        = (MemberCallResult.lookupFailed LookupErr.indexError, [], args)) ∧
    (∀ rc rest, args = rc :: rest → rc.hasLockAttr = false →
      memberCall args r
        = (MemberCallResult.lookupFailed (LookupErr.attributeError "_Lock_"), [],
           args)) ∧
    (∀ rc rest, args = rc :: rest → rc.hasLockAttr = true →
        rc.hasEventAttr = false →
      memberCall args r
        = (MemberCallResult.lookupFailed (LookupErr.attributeError "_Event_"), [],
           args)) := by
  refine ⟨?_, ?_, ?_⟩
  · intro h
    subst h
    rfl
  · intro rc rest h hlock
    subst h
    simp [memberCall, locateSyncState, hlock]
  · intro rc rest h hlock hev
    subst h
    simp [memberCall, locateSyncState, hlock, hev]

/-- Witness for C10: an empty argument list and a receiver without the
`_Lock_` attribute. -/
theorem C10_receiver_lookup_witness :
    memberCall ([] : List PyReceiver) (Except.ok (0 : Nat) : Except Unit Nat)
      = (MemberCallResult.lookupFailed LookupErr.indexError, [],
         ([] : List PyReceiver)) ∧
    memberCall
        [{ hasLockAttr := false, hasEventAttr := false,
           syncState := mkInstanceSyncState }]
        (Except.ok (0 : Nat) : Except Unit Nat)
      = (MemberCallResult.lookupFailed (LookupErr.attributeError "_Lock_"), [],
         [{ hasLockAttr := false, hasEventAttr := false,
            syncState := mkInstanceSyncState }]) :=
  ⟨(C10_receiver_lookup ([] : List PyReceiver) (Except.ok (0 : Nat))).1 rfl,
   (C10_receiver_lookup
      [{ hasLockAttr := false, hasEventAttr := false,
         syncState := mkInstanceSyncState }] (Except.ok (0 : Nat))).2.1
      _ _ rfl rfl⟩

end SyncDec
